import Mathlib

/-!
Verification of the optimistic collection-synchronization controller
(`src/frontend/src/hooks/useAssetCollection.ts`) of the finance-tracker
repository.

The controller is embedded shallowly.  React state cells become fields of
`ControllerState`.  Each synchronous operation (`openCreate`, `openEdit`,
`closeEditor`, `clearError`) is one Lean function on states.  Each
asynchronous operation (`refresh`, `submit`, `remove`) is decomposed at its
single `await` point into a start function (the synchronous prefix, which
registers a pending remote call) and settle functions (the continuation run
when the remote promise resolves or rejects).  The JavaScript event loop is
modelled by `applyEvent` / `runEvents`: at any point, any registered pending
call may settle, with an arbitrary collaborator-chosen result, which is how
the remote collaborators "may return arbitrary records".

Identifiers are JavaScript numbers used only integrally, embedded as `Int`.
`TRecord extends IdentifiableRecord` is embedded as `Record`: an `id` plus
one opaque field standing for all kind-specific fields.  The per-kind
adapters `createLocalRecord` / `updateLocalRecord` and the presence of the
four optional remote actions are a `Config`, fixed per controller instance,
exactly as `options` is in the source.
-/

namespace AssetCollection

/-- A record of the collection: an integer identifier (the `id` field of
`IdentifiableRecord`) plus one opaque payload field standing for all the
kind-specific fields of a concrete `TRecord`. -/
structure Record where
  id : Int
  data : Nat
deriving DecidableEq, Repr

/-- The submitted input (`TInput`): opaque to the controller. -/
abbrev Input := Nat

/-- The per-instance configuration: which of the four optional remote
actions (`options.actions`) are configured, plus the two construction-time
pure adapters. -/
structure Config where
  hasRefresh : Bool
  hasCreate : Bool
  hasEdit : Bool
  hasDelete : Bool
  createLocalRecord : Input → Int → Record
  updateLocalRecord : Record → Input → Record

/-- A remote call that has been issued but has not settled yet.  A delete
records the filtered identifier and the `editingRecordId` captured by the
closure at call time, the two values its continuation reads. -/
inductive PendingOp where
  | refreshOp : PendingOp
  | createOp : Input → PendingOp
  | editOp : Int → Input → PendingOp
  | deleteOp : Int → Option Int → PendingOp
deriving DecidableEq, Repr

/-- The controller state: the React state cells of `useAssetCollection`
plus `nextLocalIdRef` and the queue of in-flight remote calls. -/
structure ControllerState where
  items : List Record
  errorMessage : Option String
  isEditorOpen : Bool
  editingRecordId : Option Int
  isRefreshing : Bool
  isSubmitting : Bool
  nextLocalId : Int
  pending : List PendingOp
deriving DecidableEq, Repr

/-- Embedding of `getNextLocalId`: 1 on an empty list, otherwise
`Math.max(...items.map(item => item.id)) + 1`. -/
def getNextLocalId (items : List Record) : Int :=
  match items with
  | [] => 1
  | r :: rs => (rs.map Record.id).foldl max r.id + 1

/-- Embedding of `toErrorMessage` from `lib/apiClient`: an `Error` carrying
a nonempty message (modelled `some m`) passes its message through, anything
else falls back. -/
def toErrorMessage (e : Option String) (fallbackMessage : String) : String :=
  match e with
  | some m => m
  | none => fallbackMessage

/-- Message of the `Error` thrown on a stale edit target. -/
def staleRecordMessage : String := "当前记录已失效，请重新进入后重试。"

/-- Fallback of the `catch` in `refresh`. -/
def refreshFallback : String := "加载资产失败，请稍后重试。"

/-- Fallback of the `catch` in `submit` when the captured `editingRecordId`
was `null`. -/
def createFallback : String := "创建记录失败，请稍后重试。"

/-- Fallback of the `catch` in `submit` when the captured `editingRecordId`
was non-`null`. -/
def editFallback : String := "保存修改失败，请稍后重试。"

/-- Fallback of the `catch` in `remove`. -/
def deleteFallback : String := "删除记录失败，请稍后重试。"

/-- The derived `editingRecord` value:
`items.find(item => item.id === editingRecordId) ?? null`. -/
def editingRecord (s : ControllerState) : Option Record :=
  match s.editingRecordId with
  | none => none
  | some i => s.items.find? (fun r => r.id == i)

/-- `openCreate()`. -/
def openCreate (s : ControllerState) : ControllerState :=
  { s with errorMessage := none, editingRecordId := none, isEditorOpen := true }

/-- `openEdit(record)`. -/
def openEdit (s : ControllerState) (r : Record) : ControllerState :=
  { s with errorMessage := none, editingRecordId := some r.id, isEditorOpen := true }

/-- `closeEditor()`. -/
def closeEditor (s : ControllerState) : ControllerState :=
  { s with errorMessage := none, editingRecordId := none, isEditorOpen := false }

/-- `clearError()`. -/
def clearError (s : ControllerState) : ControllerState :=
  { s with errorMessage := none }

/-- Synchronous prefix of `refresh()`: early return when no `onRefresh`
collaborator is configured, otherwise set `isRefreshing`, clear the error
and issue the remote list call. -/
def refreshStart (cfg : Config) (s : ControllerState) : ControllerState :=
  if cfg.hasRefresh then
    { s with isRefreshing := true, errorMessage := none,
             pending := s.pending ++ [PendingOp.refreshOp] }
  else s

/-- Continuation of `refresh()` when `onRefresh` resolves with `l`: replace
`items` wholesale and advance `nextLocalIdRef`. -/
def refreshResolve (s : ControllerState) (l : List Record) : ControllerState :=
  { s with items := l,
           nextLocalId := max s.nextLocalId (getNextLocalId l),
           isRefreshing := false }

/-- Continuation of `refresh()` when `onRefresh` rejects. -/
def refreshReject (s : ControllerState) (e : Option String) : ControllerState :=
  { s with errorMessage := some (toErrorMessage e refreshFallback),
           isRefreshing := false }

/-- Synchronous prefix of `submit(payload)`.  It branches on the captured
`editingRecordId` and the captured derived `editingRecord`.  The branches
without a configured remote action run to completion synchronously (the
`async` function body contains no `await` on those paths). -/
def submitStart (cfg : Config) (p : Input) (s : ControllerState) : ControllerState :=
  let s1 := { s with isSubmitting := true, errorMessage := none }
  match s.editingRecordId with
  | some _ =>
    match editingRecord s with
    | none =>
      { s1 with errorMessage := some staleRecordMessage, isSubmitting := false }
    | some r =>
      if cfg.hasEdit then
        { s1 with pending := s1.pending ++ [PendingOp.editOp r.id p] }
      else
        let nr := cfg.updateLocalRecord r p
        let s2 := { s1 with
          items := s1.items.map (fun it => if it.id == nr.id then nr else it) }
        { closeEditor s2 with isSubmitting := false }
  | none =>
    if cfg.hasCreate then
      { s1 with pending := s1.pending ++ [PendingOp.createOp p] }
    else
      let nr := cfg.createLocalRecord p s.nextLocalId
      let s2 := { s1 with items := nr :: s1.items, nextLocalId := s.nextLocalId + 1 }
      { closeEditor s2 with isSubmitting := false }

/-- Continuation of a create `submit` when `onCreate` resolves with `rec`:
`setItems(current => [rec, ...current])`, then `closeEditor()`. -/
def submitCreateResolve (s : ControllerState) (rec : Record) : ControllerState :=
  { closeEditor { s with items := rec :: s.items } with isSubmitting := false }

/-- Continuation of a create `submit` when `onCreate` rejects. -/
def submitCreateReject (s : ControllerState) (e : Option String) : ControllerState :=
  { s with errorMessage := some (toErrorMessage e createFallback),
           isSubmitting := false }

/-- Continuation of an edit `submit` when `onEdit` resolves with `rec`:
replace in place, keyed by the returned record's identifier, then
`closeEditor()`. -/
def submitEditResolve (s : ControllerState) (rec : Record) : ControllerState :=
  { closeEditor { s with
      items := s.items.map (fun it => if it.id == rec.id then rec else it) } with
    isSubmitting := false }

/-- Continuation of an edit `submit` when `onEdit` rejects. -/
def submitEditReject (s : ControllerState) (e : Option String) : ControllerState :=
  { s with errorMessage := some (toErrorMessage e editFallback),
           isSubmitting := false }

/-- Synchronous prefix of `remove(record)`.  With `onDelete` configured the
function suspends on the remote call before mutating anything, capturing
`record.id` and the current `editingRecordId`; without it the whole body
runs synchronously. -/
def removeStart (cfg : Config) (r : Record) (s : ControllerState) : ControllerState :=
  let s1 := { s with isSubmitting := true, errorMessage := none }
  if cfg.hasDelete then
    { s1 with pending := s1.pending ++ [PendingOp.deleteOp r.id s.editingRecordId] }
  else
    let s2 := { s1 with items := s1.items.filter (fun it => it.id != r.id) }
    let s3 := if s.editingRecordId == some r.id then closeEditor s2 else s2
    { s3 with isSubmitting := false }

/-- Continuation of `remove` when `onDelete` resolves: filter the record
out and close the editor when the captured `editingRecordId` matched. -/
def removeResolve (s : ControllerState) (rid : Int) (eid : Option Int) : ControllerState :=
  let s2 := { s with items := s.items.filter (fun it => it.id != rid) }
  let s3 := if eid == some rid then closeEditor s2 else s2
  { s3 with isSubmitting := false }

/-- Continuation of `remove` when `onDelete` rejects. -/
def removeReject (s : ControllerState) (e : Option String) : ControllerState :=
  { s with errorMessage := some (toErrorMessage e deleteFallback),
           isSubmitting := false }

/-- One schedulable event of the embedded event loop: either the caller
invokes a controller operation, or the `k`-th in-flight remote call settles
with a collaborator-chosen outcome. -/
inductive Event where
  | evOpenCreate : Event
  | evOpenEdit : Record → Event
  | evCloseEditor : Event
  | evClearError : Event
  | evRefreshStart : Event
  | evSubmitStart : Input → Event
  | evRemoveStart : Record → Event
  | evSettleRefreshOk : Nat → List Record → Event
  | evSettleRefreshErr : Nat → Option String → Event
  | evSettleCreateOk : Nat → Record → Event
  | evSettleCreateErr : Nat → Option String → Event
  | evSettleEditOk : Nat → Record → Event
  | evSettleEditErr : Nat → Option String → Event
  | evSettleDeleteOk : Nat → Event
  | evSettleDeleteErr : Nat → Option String → Event
deriving DecidableEq, Repr

/-- Remove the `k`-th pending remote call after it settled. -/
def erasePending (s : ControllerState) (k : Nat) : ControllerState :=
  { s with pending := s.pending.eraseIdx k }

/-- Small-step semantics: apply one event to a state.  A settle event is
applicable only when the named pending slot holds a remote call of the
matching kind. -/
def applyEvent (cfg : Config) (s : ControllerState) : Event → Option ControllerState
  | Event.evOpenCreate => some (openCreate s)
  | Event.evOpenEdit r => some (openEdit s r)
  | Event.evCloseEditor => some (closeEditor s)
  | Event.evClearError => some (clearError s)
  | Event.evRefreshStart => some (refreshStart cfg s)
  | Event.evSubmitStart p => some (submitStart cfg p s)
  | Event.evRemoveStart r => some (removeStart cfg r s)
  | Event.evSettleRefreshOk k l =>
    match s.pending.get? k with
    | some PendingOp.refreshOp => some (erasePending (refreshResolve s l) k)
    | _ => none
  | Event.evSettleRefreshErr k e =>
    match s.pending.get? k with
    | some PendingOp.refreshOp => some (erasePending (refreshReject s e) k)
    | _ => none
  | Event.evSettleCreateOk k rec =>
    match s.pending.get? k with
    | some (PendingOp.createOp _) => some (erasePending (submitCreateResolve s rec) k)
    | _ => none
  | Event.evSettleCreateErr k e =>
    match s.pending.get? k with
    | some (PendingOp.createOp _) => some (erasePending (submitCreateReject s e) k)
    | _ => none
  | Event.evSettleEditOk k rec =>
    match s.pending.get? k with
    | some (PendingOp.editOp _ _) => some (erasePending (submitEditResolve s rec) k)
    | _ => none
  | Event.evSettleEditErr k e =>
    match s.pending.get? k with
    | some (PendingOp.editOp _ _) => some (erasePending (submitEditReject s e) k)
    | _ => none
  | Event.evSettleDeleteOk k =>
    match s.pending.get? k with
    | some (PendingOp.deleteOp rid eid) => some (erasePending (removeResolve s rid eid) k)
    | _ => none
  | Event.evSettleDeleteErr k e =>
    match s.pending.get? k with
    | some (PendingOp.deleteOp _ _) => some (erasePending (removeReject s e) k)
    | _ => none

/-- Run a sequence of events; `none` when some settle event does not match
an in-flight call. -/
def runEvents (cfg : Config) (s : ControllerState) : List Event → Option ControllerState
  | [] => some s
  | e :: es =>
    match applyEvent cfg s e with
    | some s2 => runEvents cfg s2 es
    | none => none

/-- Hook construction: the initial state of `useAssetCollection` for given
`initialItems`. -/
def initialState (initialItems : List Record) : ControllerState :=
  { items := initialItems
    errorMessage := none
    isEditorOpen := false
    editingRecordId := none
    isRefreshing := false
    isSubmitting := false
    nextLocalId := getNextLocalId initialItems
    pending := [] }

/-- Boolean check that an identifier occurs nowhere in a list of records. -/
def freshId (i : Int) (l : List Record) : Bool :=
  l.all (fun r => r.id != i)

/-- Boolean check that all identifiers of a list of records are pairwise
distinct. -/
def uniqueIds : List Record → Bool
  | [] => true
  | r :: rs => freshId r.id rs && uniqueIds rs

/-- Boolean check that the local-identifier counter strictly exceeds every
identifier in `items`. -/
def counterExceedsIds (s : ControllerState) : Bool :=
  s.items.all (fun r => decide (r.id < s.nextLocalId))

/-- Well-behaved collaborator results for one event: refresh lists carry
pairwise-distinct identifiers and create results carry an identifier not
currently in `items`.  All other events are unconstrained. -/
def goodEvent (s : ControllerState) : Event → Bool
  | Event.evSettleRefreshOk _ l => uniqueIds l
  | Event.evSettleCreateOk _ rec => freshId rec.id s.items
  | _ => true

/-- A trace whose settle events all satisfy `goodEvent` at the state where
they fire. -/
def goodTrace (cfg : Config) (s : ControllerState) : List Event → Bool
  | [] => true
  | e :: es =>
    goodEvent s e &&
      (match applyEvent cfg s e with
       | some s2 => goodTrace cfg s2 es
       | none => true)

/-- A concrete adapter pair of the shape used by every asset kind:
`createLocalRecord` stores the allocated identifier in `id`. -/
def defaultCreateLocal : Input → Int → Record := fun p n => { id := n, data := p }

/-- A concrete update adapter: keep the identifier, replace the payload. -/
def defaultUpdateLocal : Record → Input → Record := fun r p => { id := r.id, data := p }

/-- A configuration with all four remote actions present. -/
def cfgAll : Config :=
  { hasRefresh := true, hasCreate := true, hasEdit := true, hasDelete := true
    createLocalRecord := defaultCreateLocal, updateLocalRecord := defaultUpdateLocal }

/-- A configuration without an `onCreate` collaborator (creates fall back
to the local adapter). -/
def cfgNoCreate : Config :=
  { hasRefresh := true, hasCreate := false, hasEdit := true, hasDelete := true
    createLocalRecord := defaultCreateLocal, updateLocalRecord := defaultUpdateLocal }

/-- A configuration with no remote actions at all (fully local mode). -/
def cfgLocal : Config :=
  { hasRefresh := false, hasCreate := false, hasEdit := false, hasDelete := false
    createLocalRecord := defaultCreateLocal, updateLocalRecord := defaultUpdateLocal }

/-! ## List helper lemmas -/

theorem le_foldl_max : ∀ (l : List Int) (a : Int), a ≤ l.foldl max a
  | [], a => le_refl a
  | x :: xs, a => le_trans (le_max_left a x) (le_foldl_max xs (max a x))

theorem mem_le_foldl_max : ∀ (l : List Int) (a x : Int), x ∈ l → x ≤ l.foldl max a
  | [], _, _, h => absurd h (List.not_mem_nil _)
  | y :: ys, a, x, h => by
    rcases List.mem_cons.mp h with h1 | h2
    · subst h1
      exact le_trans (le_max_right a x) (le_foldl_max ys (max a x))
    · exact mem_le_foldl_max ys (max a y) x h2

/-- Every identifier in a record list is strictly below `getNextLocalId`. -/
theorem id_lt_getNextLocalId {l : List Record} {i : Int} (h : i ∈ l.map Record.id) :
    i < getNextLocalId l := by
  cases l with
  | nil => simp at h
  | cons r rs =>
    rw [getNextLocalId, Int.lt_add_one_iff]
    rcases List.mem_cons.mp h with h1 | h2
    · subst h1
      exact le_foldl_max _ _
    · exact mem_le_foldl_max _ _ _ h2

theorem freshId_iff {i : Int} {l : List Record} :
    freshId i l = true ↔ i ∉ l.map Record.id := by
  simp only [freshId, List.all_eq_true, bne_iff_ne, ne_eq, List.mem_map, not_exists, not_and]

theorem uniqueIds_iff : ∀ {l : List Record}, uniqueIds l = true ↔ (l.map Record.id).Nodup
  | [] => by simp [uniqueIds]
  | r :: rs => by
    simp only [uniqueIds, Bool.and_eq_true, freshId_iff, @uniqueIds_iff rs,
      List.map_cons, List.nodup_cons]

theorem counterExceedsIds_iff {s : ControllerState} :
    counterExceedsIds s = true ↔ ∀ i ∈ s.items.map Record.id, i < s.nextLocalId := by
  simp only [counterExceedsIds, List.all_eq_true, decide_eq_true_eq, List.mem_map]
  constructor
  · rintro h i ⟨r, hr, rfl⟩
    exact h r hr
  · intro h r hr
    exact h r.id ⟨r, hr, rfl⟩

/-- Replacing records in place keyed on the replacement's own identifier
never changes the identifier list. -/
theorem ids_map_replace (l : List Record) (rec : Record) :
    (l.map (fun it => if it.id == rec.id then rec else it)).map Record.id
      = l.map Record.id := by
  induction l with
  | nil => rfl
  | cons x t ih =>
    simp only [List.map_cons, ih, List.cons.injEq, and_true]
    rcases eq_or_ne x.id rec.id with hb | hb
    · simp [hb]
    · simp [hb]

/-- When the keyed identifier is absent, the in-place replacement map is
the identity. -/
theorem map_replace_of_fresh {l : List Record} {rec : Record}
    (h : freshId rec.id l = true) :
    l.map (fun it => if it.id == rec.id then rec else it) = l := by
  induction l with
  | nil => rfl
  | cons x t ih =>
    simp only [freshId, List.all_cons, Bool.and_eq_true, bne_iff_ne, ne_eq] at h
    obtain ⟨h1, h2⟩ := h
    have hx : (x.id == rec.id) = false := by
      simp only [beq_eq_false_iff_ne, ne_eq]
      intro hcon
      exact h1 hcon
    simp only [List.map_cons, hx, Bool.false_eq_true, if_false, List.cons.injEq, true_and]
    exact ih h2

/-- When the keyed identifier is absent, `find?` by that identifier fails. -/
theorem find?_eq_none_of_fresh {l : List Record} {i : Int}
    (h : freshId i l = true) :
    l.find? (fun r => r.id == i) = none := by
  rw [List.find?_eq_none]
  intro x hx
  simp only [freshId, List.all_eq_true, bne_iff_ne, ne_eq] at h
  simp only [beq_iff_eq]
  exact h x hx

/-! ## Invariants -/

/-- Every identifier of `items` is strictly below the local counter. -/
def CounterDominates (s : ControllerState) : Prop :=
  ∀ i ∈ s.items.map Record.id, i < s.nextLocalId

/-- No in-flight remote create call. -/
def NoPendingCreate (s : ControllerState) : Prop :=
  ∀ p, PendingOp.createOp p ∉ s.pending

/-- The identifiers of `items` are pairwise distinct. -/
def IdsNodup (s : ControllerState) : Prop :=
  (s.items.map Record.id).Nodup

/-- The adapter stores the allocated identifier in the record, as every
per-kind `createLocalRecord` of the repository does. -/
def AdapterSetsId (cfg : Config) : Prop :=
  ∀ p n, (cfg.createLocalRecord p n).id = n

theorem removeResolve_items (s : ControllerState) (rid : Int) (eid : Option Int) :
    (removeResolve s rid eid).items = s.items.filter (fun it => it.id != rid) := by
  rw [removeResolve]
  split <;> rfl

theorem removeResolve_nextLocalId (s : ControllerState) (rid : Int) (eid : Option Int) :
    (removeResolve s rid eid).nextLocalId = s.nextLocalId := by
  rw [removeResolve]
  split <;> rfl

theorem removeResolve_pending (s : ControllerState) (rid : Int) (eid : Option Int) :
    (removeResolve s rid eid).pending = s.pending := by
  rw [removeResolve]
  split <;> rfl

/-! ## Branch lemmas for the operation bodies -/

theorem refreshStart_on {cfg : Config} {s : ControllerState} (h : cfg.hasRefresh = true) :
    refreshStart cfg s =
      { s with isRefreshing := true, errorMessage := none,
               pending := s.pending ++ [PendingOp.refreshOp] } := by
  rw [refreshStart, h]
  rfl

theorem refreshStart_off {cfg : Config} {s : ControllerState} (h : cfg.hasRefresh = false) :
    refreshStart cfg s = s := by
  rw [refreshStart, h]
  rfl

theorem submitStart_stale {cfg : Config} {p : Input} {s : ControllerState} {i : Int}
    (h1 : s.editingRecordId = some i) (h2 : editingRecord s = none) :
    submitStart cfg p s =
      { s with errorMessage := some staleRecordMessage, isSubmitting := false } := by
  rw [submitStart, h1, h2]

theorem submitStart_edit_remote {cfg : Config} {p : Input} {s : ControllerState}
    {i : Int} {r : Record}
    (h1 : s.editingRecordId = some i) (h2 : editingRecord s = some r)
    (he : cfg.hasEdit = true) :
    submitStart cfg p s =
      { s with isSubmitting := true, errorMessage := none,
               pending := s.pending ++ [PendingOp.editOp r.id p] } := by
  rw [submitStart, h1, h2]
  simp [he]

theorem submitStart_edit_local {cfg : Config} {p : Input} {s : ControllerState}
    {i : Int} {r : Record}
    (h1 : s.editingRecordId = some i) (h2 : editingRecord s = some r)
    (he : cfg.hasEdit = false) :
    submitStart cfg p s =
      { s with
        items := s.items.map (fun it =>
          if it.id == (cfg.updateLocalRecord r p).id then cfg.updateLocalRecord r p else it),
        errorMessage := none, editingRecordId := none, isEditorOpen := false,
        isSubmitting := false } := by
  rw [submitStart, h1, h2]
  simp [he, closeEditor]

theorem submitStart_create_remote {cfg : Config} {p : Input} {s : ControllerState}
    (h1 : s.editingRecordId = none) (hc : cfg.hasCreate = true) :
    submitStart cfg p s =
      { s with isSubmitting := true, errorMessage := none,
               pending := s.pending ++ [PendingOp.createOp p] } := by
  rw [submitStart, h1]
  simp [hc]

theorem submitStart_create_local {cfg : Config} {p : Input} {s : ControllerState}
    (h1 : s.editingRecordId = none) (hc : cfg.hasCreate = false) :
    submitStart cfg p s =
      { s with
        items := cfg.createLocalRecord p s.nextLocalId :: s.items,
        nextLocalId := s.nextLocalId + 1,
        errorMessage := none, editingRecordId := none, isEditorOpen := false,
        isSubmitting := false } := by
  rw [submitStart, h1]
  simp [hc, closeEditor]

theorem removeStart_remote {cfg : Config} {r : Record} {s : ControllerState}
    (hd : cfg.hasDelete = true) :
    removeStart cfg r s =
      { s with isSubmitting := true, errorMessage := none,
               pending := s.pending ++ [PendingOp.deleteOp r.id s.editingRecordId] } := by
  rw [removeStart, hd]
  rfl

theorem removeStart_local_items {cfg : Config} {r : Record} {s : ControllerState}
    (hd : cfg.hasDelete = false) :
    (removeStart cfg r s).items = s.items.filter (fun it => it.id != r.id) := by
  rw [removeStart, hd]
  simp only [Bool.false_eq_true, if_false]
  split <;> rfl

theorem removeStart_local_nextLocalId {cfg : Config} {r : Record} {s : ControllerState}
    (hd : cfg.hasDelete = false) :
    (removeStart cfg r s).nextLocalId = s.nextLocalId := by
  rw [removeStart, hd]
  simp only [Bool.false_eq_true, if_false]
  split <;> rfl

theorem removeStart_local_pending {cfg : Config} {r : Record} {s : ControllerState}
    (hd : cfg.hasDelete = false) :
    (removeStart cfg r s).pending = s.pending := by
  rw [removeStart, hd]
  simp only [Bool.false_eq_true, if_false]
  split <;> rfl

/-! ## Preservation of the counter invariant (no `onCreate` configured) -/

theorem mem_of_mem_eraseIdx {α : Type} (l : List α) (k : Nat) {x : α}
    (h : x ∈ l.eraseIdx k) : x ∈ l :=
  (List.eraseIdx_sublist l k).subset h

theorem noPendingCreate_append {l : List PendingOp} {op : PendingOp}
    (h : ∀ p, PendingOp.createOp p ∉ l) (hop : ∀ p, op ≠ PendingOp.createOp p) :
    ∀ p, PendingOp.createOp p ∉ l ++ [op] := by
  intro p hmem
  rcases List.mem_append.mp hmem with h1 | h1
  · exact h p h1
  · exact hop p (List.mem_singleton.mp h1).symm

theorem counter_transfer {s t : ControllerState}
    (hcd : CounterDominates s) (hnpc : NoPendingCreate s)
    (hi : ∀ i ∈ t.items.map Record.id, i ∈ s.items.map Record.id)
    (hn : t.nextLocalId = s.nextLocalId)
    (hp : ∀ x ∈ t.pending, x ∈ s.pending) :
    CounterDominates t ∧ NoPendingCreate t :=
  ⟨fun i hmem => hn ▸ hcd i (hi i hmem), fun p hmem => hnpc p (hp _ hmem)⟩

/-- One step preserves the counter invariant when no remote create
collaborator is configured and the create adapter stores its identifier
argument. -/
theorem applyEvent_counter {cfg : Config} (hc : cfg.hasCreate = false)
    (hadapter : AdapterSetsId cfg) {s s2 : ControllerState} {e : Event}
    (hcd : CounterDominates s) (hnpc : NoPendingCreate s)
    (ha : applyEvent cfg s e = some s2) :
    CounterDominates s2 ∧ NoPendingCreate s2 := by
  cases e with
  | evOpenCreate =>
    injection ha with h
    subst h
    exact counter_transfer hcd hnpc (fun i h => h) rfl (fun x h => h)
  | evOpenEdit r =>
    injection ha with h
    subst h
    exact counter_transfer hcd hnpc (fun i h => h) rfl (fun x h => h)
  | evCloseEditor =>
    injection ha with h
    subst h
    exact counter_transfer hcd hnpc (fun i h => h) rfl (fun x h => h)
  | evClearError =>
    injection ha with h
    subst h
    exact counter_transfer hcd hnpc (fun i h => h) rfl (fun x h => h)
  | evRefreshStart =>
    injection ha with h
    subst h
    cases hr : cfg.hasRefresh with
    | false =>
      rw [refreshStart_off hr]
      exact ⟨hcd, hnpc⟩
    | true =>
      rw [refreshStart_on hr]
      refine ⟨hcd, noPendingCreate_append hnpc ?_⟩
      intro p hop
      cases hop
  | evSubmitStart p =>
    injection ha with h
    subst h
    cases heid : s.editingRecordId with
    | some i =>
      cases her : editingRecord s with
      | none =>
        rw [submitStart_stale heid her]
        exact ⟨hcd, hnpc⟩
      | some r =>
        cases hedit : cfg.hasEdit with
        | true =>
          rw [submitStart_edit_remote heid her hedit]
          refine ⟨hcd, noPendingCreate_append hnpc ?_⟩
          intro q hop
          cases hop
        | false =>
          rw [submitStart_edit_local heid her hedit]
          refine ⟨?_, hnpc⟩
          intro j hj
          rw [ids_map_replace] at hj
          exact hcd j hj
    | none =>
      rw [submitStart_create_local heid hc]
      refine ⟨?_, hnpc⟩
      intro j hj
      simp only [List.map_cons, List.mem_cons, hadapter p s.nextLocalId] at hj
      rcases hj with rfl | hj
      · exact lt_add_one _
      · exact lt_trans (hcd j hj) (lt_add_one _)
  | evRemoveStart r =>
    injection ha with h
    subst h
    cases hd : cfg.hasDelete with
    | true =>
      rw [removeStart_remote hd]
      refine ⟨hcd, noPendingCreate_append hnpc ?_⟩
      intro q hop
      cases hop
    | false =>
      constructor
      · intro j hj
        rw [removeStart_local_items hd, removeStart_local_nextLocalId hd] at *
        exact hcd j ((List.Sublist.map Record.id (List.filter_sublist s.items)).subset hj)
      · intro q hq
        rw [removeStart_local_pending hd] at hq
        exact hnpc q hq
  | evSettleRefreshOk k l =>
    rw [applyEvent] at ha
    split at ha
    case _ hget =>
      injection ha with h
      subst h
      constructor
      · intro j hj
        exact lt_of_lt_of_le (id_lt_getNextLocalId hj) (le_max_right _ _)
      · intro q hq
        exact hnpc q (mem_of_mem_eraseIdx s.pending k hq)
    case _ => cases ha
  | evSettleRefreshErr k err =>
    rw [applyEvent] at ha
    split at ha
    case _ hget =>
      injection ha with h
      subst h
      exact counter_transfer hcd hnpc (fun i h => h) rfl (fun x hx => mem_of_mem_eraseIdx s.pending k hx)
    case _ => cases ha
  | evSettleCreateOk k rec =>
    rw [applyEvent] at ha
    split at ha
    case _ q hget =>
      exact absurd (List.get?_mem hget) (hnpc q)
    case _ => cases ha
  | evSettleCreateErr k err =>
    rw [applyEvent] at ha
    split at ha
    case _ q hget =>
      exact absurd (List.get?_mem hget) (hnpc q)
    case _ => cases ha
  | evSettleEditOk k rec =>
    rw [applyEvent] at ha
    split at ha
    case _ tid q hget =>
      injection ha with h
      subst h
      constructor
      · intro j hj
        simp only [erasePending, submitEditResolve, closeEditor] at hj ⊢
        rw [ids_map_replace] at hj
        exact hcd j hj
      · intro q hq
        exact hnpc q (mem_of_mem_eraseIdx s.pending k hq)
    case _ => cases ha
  | evSettleEditErr k err =>
    rw [applyEvent] at ha
    split at ha
    case _ tid q hget =>
      injection ha with h
      subst h
      exact counter_transfer hcd hnpc (fun i h => h) rfl (fun x hx => mem_of_mem_eraseIdx s.pending k hx)
    case _ => cases ha
  | evSettleDeleteOk k =>
    rw [applyEvent] at ha
    split at ha
    case _ rid eid hget =>
      injection ha with h
      subst h
      constructor
      · intro j hj
        simp only [erasePending, removeResolve_items, removeResolve_nextLocalId] at hj ⊢
        exact hcd j ((List.Sublist.map Record.id (List.filter_sublist s.items)).subset hj)
      · intro q hq
        simp only [erasePending, removeResolve_pending] at hq
        exact hnpc q (mem_of_mem_eraseIdx s.pending k hq)
    case _ => cases ha
  | evSettleDeleteErr k err =>
    rw [applyEvent] at ha
    split at ha
    case _ rid eid hget =>
      injection ha with h
      subst h
      exact counter_transfer hcd hnpc (fun i h => h) rfl (fun x hx => mem_of_mem_eraseIdx s.pending k hx)
    case _ => cases ha

/-! ## Preservation of identifier uniqueness -/

theorem idsNodup_of_ids_eq {s t : ControllerState}
    (h : t.items.map Record.id = s.items.map Record.id) (hnd : IdsNodup s) :
    IdsNodup t := by
  unfold IdsNodup at *
  rw [h]
  exact hnd

theorem idsNodup_of_sublist {s t : ControllerState}
    (h : List.Sublist (t.items.map Record.id) (s.items.map Record.id)) (hnd : IdsNodup s) :
    IdsNodup t :=
  List.Nodup.sublist h hnd

/-- One step preserves pairwise-distinct identifiers, provided the refresh
and create collaborator results of that step are well behaved and the
create adapter stores its identifier argument. -/
theorem applyEvent_nodup {cfg : Config} (hadapter : AdapterSetsId cfg)
    {s s2 : ControllerState} {e : Event}
    (hnd : IdsNodup s)
    (haux : cfg.hasCreate = false → CounterDominates s ∧ NoPendingCreate s)
    (hg : goodEvent s e = true)
    (ha : applyEvent cfg s e = some s2) :
    IdsNodup s2 := by
  cases e with
  | evOpenCreate =>
    injection ha with h
    subst h
    exact hnd
  | evOpenEdit r =>
    injection ha with h
    subst h
    exact hnd
  | evCloseEditor =>
    injection ha with h
    subst h
    exact hnd
  | evClearError =>
    injection ha with h
    subst h
    exact hnd
  | evRefreshStart =>
    injection ha with h
    subst h
    cases hr : cfg.hasRefresh with
    | false =>
      rw [refreshStart_off hr]
      exact hnd
    | true =>
      rw [refreshStart_on hr]
      exact hnd
  | evSubmitStart p =>
    injection ha with h
    subst h
    cases heid : s.editingRecordId with
    | some i =>
      cases her : editingRecord s with
      | none =>
        rw [submitStart_stale heid her]
        exact hnd
      | some r =>
        cases hedit : cfg.hasEdit with
        | true =>
          rw [submitStart_edit_remote heid her hedit]
          exact hnd
        | false =>
          rw [submitStart_edit_local heid her hedit]
          exact idsNodup_of_ids_eq (ids_map_replace s.items (cfg.updateLocalRecord r p)) hnd
    | none =>
      cases hcc : cfg.hasCreate with
      | true =>
        rw [submitStart_create_remote heid hcc]
        exact hnd
      | false =>
        rw [submitStart_create_local heid hcc]
        obtain ⟨hcd, _⟩ := haux hcc
        unfold IdsNodup at *
        rw [List.map_cons, List.nodup_cons, hadapter p s.nextLocalId]
        refine ⟨fun hmem => ?_, hnd⟩
        exact absurd (hcd _ hmem) (lt_irrefl _)
  | evRemoveStart r =>
    injection ha with h
    subst h
    cases hd : cfg.hasDelete with
    | true =>
      rw [removeStart_remote hd]
      exact hnd
    | false =>
      refine idsNodup_of_sublist ?_ hnd
      rw [removeStart_local_items hd]
      exact List.Sublist.map Record.id (List.filter_sublist s.items)
  | evSettleRefreshOk k l =>
    rw [applyEvent] at ha
    split at ha
    case _ hget =>
      injection ha with h
      subst h
      simp only [goodEvent] at hg
      exact uniqueIds_iff.mp hg
    case _ => cases ha
  | evSettleRefreshErr k err =>
    rw [applyEvent] at ha
    split at ha
    case _ hget =>
      injection ha with h
      subst h
      exact hnd
    case _ => cases ha
  | evSettleCreateOk k rec =>
    rw [applyEvent] at ha
    split at ha
    case _ q hget =>
      injection ha with h
      subst h
      simp only [goodEvent] at hg
      unfold IdsNodup at *
      show ((rec :: s.items).map Record.id).Nodup
      rw [List.map_cons, List.nodup_cons]
      exact ⟨freshId_iff.mp hg, hnd⟩
    case _ => cases ha
  | evSettleCreateErr k err =>
    rw [applyEvent] at ha
    split at ha
    case _ q hget =>
      injection ha with h
      subst h
      exact hnd
    case _ => cases ha
  | evSettleEditOk k rec =>
    rw [applyEvent] at ha
    split at ha
    case _ tid q hget =>
      injection ha with h
      subst h
      exact idsNodup_of_ids_eq (ids_map_replace s.items rec) hnd
    case _ => cases ha
  | evSettleEditErr k err =>
    rw [applyEvent] at ha
    split at ha
    case _ tid q hget =>
      injection ha with h
      subst h
      exact hnd
    case _ => cases ha
  | evSettleDeleteOk k =>
    rw [applyEvent] at ha
    split at ha
    case _ rid eid hget =>
      injection ha with h
      subst h
      refine idsNodup_of_sublist ?_ hnd
      show List.Sublist ((removeResolve s rid eid).items.map Record.id) (s.items.map Record.id)
      rw [removeResolve_items]
      exact List.Sublist.map Record.id (List.filter_sublist s.items)
    case _ => cases ha
  | evSettleDeleteErr k err =>
    rw [applyEvent] at ha
    split at ha
    case _ rid eid hget =>
      injection ha with h
      subst h
      exact hnd
    case _ => cases ha

/-! ## Trace-level invariant lemmas -/

theorem runEvents_counter {cfg : Config} (hc : cfg.hasCreate = false)
    (hadapter : AdapterSetsId cfg) :
    ∀ (tr : List Event) (s s2 : ControllerState),
      CounterDominates s → NoPendingCreate s →
      runEvents cfg s tr = some s2 →
      CounterDominates s2 ∧ NoPendingCreate s2
  | [], s, s2, h1, h2, hr => by
    rw [runEvents] at hr
    injection hr with h
    subst h
    exact ⟨h1, h2⟩
  | e :: tr, s, s2, h1, h2, hr => by
    rw [runEvents] at hr
    cases hae : applyEvent cfg s e with
    | none =>
      rw [hae] at hr
      cases hr
    | some smid =>
      rw [hae] at hr
      obtain ⟨g1, g2⟩ := applyEvent_counter hc hadapter h1 h2 hae
      exact runEvents_counter hc hadapter tr smid s2 g1 g2 hr

theorem runEvents_nodup {cfg : Config} (hadapter : AdapterSetsId cfg) :
    ∀ (tr : List Event) (s s2 : ControllerState),
      IdsNodup s →
      (cfg.hasCreate = false → CounterDominates s ∧ NoPendingCreate s) →
      goodTrace cfg s tr = true →
      runEvents cfg s tr = some s2 →
      IdsNodup s2
  | [], s, s2, hnd, _, _, hr => by
    rw [runEvents] at hr
    injection hr with h
    subst h
    exact hnd
  | e :: tr, s, s2, hnd, haux, hg, hr => by
    rw [runEvents] at hr
    rw [goodTrace] at hg
    cases hae : applyEvent cfg s e with
    | none =>
      rw [hae] at hr
      cases hr
    | some smid =>
      rw [hae] at hr
      rw [hae] at hg
      simp only [Bool.and_eq_true] at hg
      obtain ⟨hg1, hg2⟩ := hg
      have hnd2 := applyEvent_nodup hadapter hnd haux hg1 hae
      have haux2 : cfg.hasCreate = false → CounterDominates smid ∧ NoPendingCreate smid :=
        fun hcc => applyEvent_counter hcc hadapter (haux hcc).1 (haux hcc).2 hae
      exact runEvents_nodup hadapter tr smid s2 hnd2 haux2 hg2 hr

/-- The initial state satisfies all three auxiliary invariants. -/
theorem initialState_invariants (init : List Record) :
    CounterDominates (initialState init) ∧ NoPendingCreate (initialState init) := by
  constructor
  · intro i hmem
    exact id_lt_getNextLocalId hmem
  · intro p hmem
    cases hmem

/-! ## Claim C1: identifier uniqueness -/

/-- Claim C1 as stated: for every sequence of controller operations, with
the remote collaborators allowed to return arbitrary records, every
identifier in `items` is unique at every observable point. -/
def c1ClaimStatement : Prop :=
  ∀ (cfg : Config) (init : List Record) (tr : List Event) (s2 : ControllerState),
    uniqueIds init = true →
    runEvents cfg (initialState init) tr = some s2 →
    uniqueIds s2.items = true

/-- Final state of the C1 refutation run: a refresh whose result repeats
identifier 1. -/
def c1BadState : ControllerState :=
  { items := [⟨1, 0⟩, ⟨1, 1⟩], errorMessage := none, isEditorOpen := false,
    editingRecordId := none, isRefreshing := false, isSubmitting := false,
    nextLocalId := 2, pending := [] }

/-- C1 is false as stated: `refresh()` replaces `items` wholesale with the
collaborator's list, so an `onRefresh` result carrying a duplicated
identifier puts duplicate identifiers into `items`. -/
theorem C1_counterexample : ¬ c1ClaimStatement := by
  intro h
  have hbad := h cfgAll [] [Event.evRefreshStart, Event.evSettleRefreshOk 0 [⟨1, 0⟩, ⟨1, 1⟩]]
    c1BadState (by decide) (by decide)
  exact absurd hbad (by decide)

/-- C1 (amended): identifiers in `items` are unique at every observable
point provided the collaborators are well behaved — every `onRefresh`
result has pairwise-distinct identifiers, every `onCreate` result carries
an identifier absent from `items` when it resolves, the initial items are
identifier-unique, and the create adapter stores the allocated identifier. -/
theorem C1_unique_identifiers (cfg : Config) (init : List Record) (tr : List Event)
    (s2 : ControllerState)
    (hadapter : AdapterSetsId cfg)
    (hinit : uniqueIds init = true)
    (hgood : goodTrace cfg (initialState init) tr = true)
    (hrun : runEvents cfg (initialState init) tr = some s2) :
    uniqueIds s2.items = true := by
  have h0 := initialState_invariants init
  have hnd : IdsNodup (initialState init) := uniqueIds_iff.mp hinit
  exact uniqueIds_iff.mpr
    (runEvents_nodup hadapter tr (initialState init) s2 hnd (fun _ => h0) hgood hrun)

/-- Final state of the C1 witness run. -/
def c1GoodState : ControllerState :=
  { items := [⟨6, 9⟩, ⟨2, 0⟩, ⟨3, 1⟩], errorMessage := none,
    isEditorOpen := false, editingRecordId := none, isRefreshing := false,
    isSubmitting := false, nextLocalId := 7, pending := [] }

/-- Witness for C1: a concrete well-behaved run mixing a server refresh and
a local optimistic create keeps identifiers unique. -/
theorem C1_witness : uniqueIds c1GoodState.items = true :=
  C1_unique_identifiers cfgNoCreate [⟨5, 0⟩]
    [Event.evRefreshStart, Event.evSettleRefreshOk 0 [⟨2, 0⟩, ⟨3, 1⟩],
     Event.evOpenCreate, Event.evSubmitStart 9]
    c1GoodState (fun _ _ => rfl) (by decide) (by decide) (by decide)

/-! ## Claim C2: the local counter exceeds every identifier -/

/-- Claim C2 as stated: at every observable point the local-identifier
counter strictly exceeds every identifier in `items`, regardless of whether
identifiers came from `onRefresh`/`onCreate` results or local inserts. -/
def c2ClaimStatement : Prop :=
  ∀ (cfg : Config) (init : List Record) (tr : List Event) (s2 : ControllerState),
    uniqueIds init = true →
    runEvents cfg (initialState init) tr = some s2 →
    counterExceedsIds s2 = true

/-- Final state of the C2 refutation run. -/
def c2BadState : ControllerState :=
  { items := [⟨7, 100⟩], errorMessage := none, isEditorOpen := false,
    editingRecordId := none, isRefreshing := false, isSubmitting := false,
    nextLocalId := 1, pending := [] }

/-- C2 is false as stated: a successful `onCreate` prepends the returned
record without advancing `nextLocalIdRef` (only `refresh` advances it), so
after `onCreate` resolves with identifier 7 the counter is still 1. -/
theorem C2_counterexample : ¬ c2ClaimStatement := by
  intro h
  have hbad := h cfgAll [] [Event.evOpenCreate, Event.evSubmitStart 100,
      Event.evSettleCreateOk 0 ⟨7, 100⟩]
    c2BadState (by decide) (by decide)
  exact absurd hbad (by decide)

/-- C2 (amended): in configurations without an `onCreate` collaborator
(the only ones in which the counter is ever consumed), the counter strictly
exceeds every identifier in `items` at every observable point, for
arbitrary collaborator results; after a successful remote create the bound
can fail, as the counterexample shows. -/
theorem C2_counter_exceeds (cfg : Config) (init : List Record) (tr : List Event)
    (s2 : ControllerState)
    (hc : cfg.hasCreate = false)
    (hadapter : AdapterSetsId cfg)
    (hrun : runEvents cfg (initialState init) tr = some s2) :
    counterExceedsIds s2 = true := by
  obtain ⟨h1, h2⟩ := initialState_invariants init
  exact counterExceedsIds_iff.mpr
    (runEvents_counter hc hadapter tr (initialState init) s2 h1 h2 hrun).1

/-- Final state of the C2 witness run. -/
def c2GoodState : ControllerState :=
  { items := [⟨9, 0⟩], errorMessage := none, isEditorOpen := false,
    editingRecordId := none, isRefreshing := false, isSubmitting := false,
    nextLocalId := 10, pending := [] }

/-- Witness for C2: after a refresh returning identifier 9 while the local
counter was 1, the counter is 10. -/
theorem C2_witness : counterExceedsIds c2GoodState = true :=
  C2_counter_exceeds cfgNoCreate []
    [Event.evRefreshStart, Event.evSettleRefreshOk 0 [⟨9, 0⟩]]
    c2GoodState rfl (fun _ _ => rfl) (by decide)

/-! ## Claim C3: create submit is not optimistic -/

/-- Claim C3 as stated: with `onCreate` configured, a create `submit` first
allocates the next local identifier and prepends the provisional record
built by `createLocalRecord` before the remote call resolves. -/
def c3ClaimStatement : Prop :=
  ∀ (cfg : Config) (init : List Record) (tr : List Event) (s : ControllerState) (p : Input),
    runEvents cfg (initialState init) tr = some s →
    cfg.hasCreate = true →
    s.editingRecordId = none →
    (submitStart cfg p s).items = cfg.createLocalRecord p s.nextLocalId :: s.items ∧
    (submitStart cfg p s).nextLocalId = s.nextLocalId + 1

/-- The state reached by `openCreate()` from an empty initial collection. -/
def c3StartState : ControllerState :=
  { items := [], errorMessage := none, isEditorOpen := true,
    editingRecordId := none, isRefreshing := false, isSubmitting := false,
    nextLocalId := 1, pending := [] }

/-- C3 is false as stated: with `onCreate` configured the code awaits the
remote call before touching `items`, so at the suspension point no
provisional record has been prepended and no local identifier allocated. -/
theorem C3_counterexample : ¬ c3ClaimStatement := by
  intro h
  have hbad := (h cfgAll [] [Event.evOpenCreate] c3StartState 0 (by decide) rfl rfl).1
  exact absurd hbad (by decide)

/-- C3 (amended): with `onCreate` configured, a create `submit` is not
optimistic.  At the suspension point `items`, the counter and the editor
are unchanged and a pending remote create is registered; if `onCreate`
rejects, `items` is still unchanged, the error is surfaced through the
create fallback, and the editor remains in Creating state. -/
theorem C3_create_waits_for_remote (cfg : Config) (p : Input) (e : Option String)
    (s : ControllerState)
    (hc : cfg.hasCreate = true) (he : s.editingRecordId = none) (hp : s.pending = []) :
    (submitStart cfg p s).items = s.items
  ∧ (submitStart cfg p s).nextLocalId = s.nextLocalId
  ∧ (submitStart cfg p s).editingRecordId = none
  ∧ (submitStart cfg p s).isEditorOpen = s.isEditorOpen
  ∧ (submitStart cfg p s).pending = [PendingOp.createOp p]
  ∧ runEvents cfg s [Event.evSubmitStart p, Event.evSettleCreateErr 0 e]
      = some { s with errorMessage := some (toErrorMessage e createFallback),
                      isSubmitting := false } := by
  obtain ⟨it, err, op, eid, refr, subm, nid, pend⟩ := s
  obtain rfl : eid = none := he
  obtain rfl : pend = [] := hp
  simp [submitStart, runEvents, applyEvent, erasePending, submitCreateReject,
    closeEditor, hc]

/-- Witness for C3 at a concrete state and rejection. -/
theorem C3_witness :
    (submitStart cfgAll 0 c3StartState).items = c3StartState.items
  ∧ (submitStart cfgAll 0 c3StartState).nextLocalId = c3StartState.nextLocalId
  ∧ (submitStart cfgAll 0 c3StartState).editingRecordId = none
  ∧ (submitStart cfgAll 0 c3StartState).isEditorOpen = c3StartState.isEditorOpen
  ∧ (submitStart cfgAll 0 c3StartState).pending = [PendingOp.createOp 0]
  ∧ runEvents cfgAll c3StartState [Event.evSubmitStart 0, Event.evSettleCreateErr 0 none]
      = some { c3StartState with
               errorMessage := some (toErrorMessage none createFallback),
               isSubmitting := false } :=
  C3_create_waits_for_remote cfgAll 0 none c3StartState rfl rfl rfl

/-! ## Claim C4: failed submits roll back exactly -/

/-- The rejection event for the pending remote call a submit registered at
slot 0. -/
def settleErrEvent (op : PendingOp) (e : Option String) : Event :=
  match op with
  | PendingOp.refreshOp => Event.evSettleRefreshErr 0 e
  | PendingOp.createOp _ => Event.evSettleCreateErr 0 e
  | PendingOp.editOp _ _ => Event.evSettleEditErr 0 e
  | PendingOp.deleteOp _ _ => Event.evSettleDeleteErr 0 e

/-- C4: whenever a `submit` suspends on a remote collaborator (create or
edit) and that collaborator rejects, the settled state equals the
pre-submit state except for `errorMessage` (set through the fallback chosen
by the captured `editingRecordId`) and the transient `isSubmitting` flag —
`items`, the editor and everything else are exactly restored. -/
theorem C4_reject_rolls_back (cfg : Config) (p : Input) (e : Option String)
    (s : ControllerState) (op : PendingOp)
    (hp : s.pending = [])
    (hpush : (submitStart cfg p s).pending = [op]) :
    runEvents cfg s [Event.evSubmitStart p, settleErrEvent op e]
      = some { s with
          errorMessage := some (toErrorMessage e
            (match s.editingRecordId with
             | none => createFallback
             | some _ => editFallback)),
          isSubmitting := false } := by
  obtain ⟨it, err, opn, eid, refr, subm, nid, pend⟩ := s
  obtain rfl : pend = [] := hp
  cases eid with
  | none =>
    cases hcc : cfg.hasCreate with
    | true =>
      rw [submitStart_create_remote rfl hcc] at hpush
      simp only [List.nil_append, List.cons.injEq, and_true] at hpush
      obtain rfl : op = PendingOp.createOp p := hpush.symm
      simp [submitStart, runEvents, applyEvent, settleErrEvent, erasePending,
        submitCreateReject, hcc]
    | false =>
      rw [submitStart_create_local rfl hcc] at hpush
      simp at hpush
  | some i =>
    cases her : editingRecord ⟨it, err, opn, some i, refr, subm, nid, []⟩ with
    | none =>
      rw [submitStart_stale rfl her] at hpush
      simp at hpush
    | some r =>
      cases hedit : cfg.hasEdit with
      | true =>
        rw [submitStart_edit_remote rfl her hedit] at hpush
        simp only [List.nil_append, List.cons.injEq, and_true] at hpush
        obtain rfl : op = PendingOp.editOp r.id p := hpush.symm
        simp [submitStart, runEvents, applyEvent, settleErrEvent, erasePending,
          submitEditReject, hedit, her]
      | false =>
        rw [submitStart_edit_local rfl her hedit] at hpush
        simp at hpush

/-- Witness for C4: a concrete create submit whose collaborator rejects
with an error message. -/
theorem C4_witness :
    runEvents cfgAll c3StartState
        [Event.evSubmitStart 0, settleErrEvent (PendingOp.createOp 0) (some "boom")]
      = some { c3StartState with
          errorMessage := some (toErrorMessage (some "boom")
            (match c3StartState.editingRecordId with
             | none => createFallback
             | some _ => editFallback)),
          isSubmitting := false } :=
  C4_reject_rolls_back cfgAll 0 (some "boom") c3StartState (PendingOp.createOp 0) rfl rfl

/-! ## Claim C5: remove is not optimistic -/

/-- Claim C5 as stated: with `onDelete` configured, `remove(record)`
optimistically deletes the record before the remote call resolves, and on
rejection the record reappears at the head of `items`. -/
def c5ClaimStatement : Prop :=
  ∀ (cfg : Config) (init : List Record) (tr : List Event) (s : ControllerState)
    (r : Record) (e : Option String) (t : ControllerState),
    runEvents cfg (initialState init) tr = some s →
    cfg.hasDelete = true →
    ((removeStart cfg r s).items = s.items.filter (fun it => it.id != r.id)
     ∧ (runEvents cfg s [Event.evRemoveStart r, Event.evSettleDeleteErr 0 e] = some t →
        t.items.head? = some r))

/-- C5 is false as stated: the code awaits `onDelete` before filtering, so
at the suspension point the record is still present, and after a rejection
`items` is unchanged — the record sits at its original position, not at the
head. -/
theorem C5_counterexample : ¬ c5ClaimStatement := by
  intro h
  have hbad := (h cfgAll [⟨1, 0⟩, ⟨2, 0⟩] [] (initialState [⟨1, 0⟩, ⟨2, 0⟩]) ⟨2, 0⟩ none
    (initialState [⟨1, 0⟩, ⟨2, 0⟩]) rfl rfl).1
  exact absurd hbad (by decide)

/-- C5 (amended): with `onDelete` configured, `remove(record)` suspends
before mutating anything, capturing `record.id` and the current
`editingRecordId`; on rejection the state equals the pre-remove state
except for `errorMessage` and `isSubmitting`; on success the record is
filtered out of `items` and the editor closes exactly when the captured
`editingRecordId` was `record.id`. -/
theorem C5_remove_waits_for_remote (cfg : Config) (r : Record) (e : Option String)
    (s : ControllerState)
    (hd : cfg.hasDelete = true) (hp : s.pending = []) :
    (removeStart cfg r s).items = s.items
  ∧ (removeStart cfg r s).isEditorOpen = s.isEditorOpen
  ∧ (removeStart cfg r s).editingRecordId = s.editingRecordId
  ∧ (removeStart cfg r s).pending = [PendingOp.deleteOp r.id s.editingRecordId]
  ∧ runEvents cfg s [Event.evRemoveStart r, Event.evSettleDeleteErr 0 e]
      = some { s with errorMessage := some (toErrorMessage e deleteFallback),
                      isSubmitting := false }
  ∧ runEvents cfg s [Event.evRemoveStart r, Event.evSettleDeleteOk 0]
      = some (if s.editingRecordId == some r.id
          then { s with
                 items := s.items.filter (fun it => it.id != r.id),
                 errorMessage := none, editingRecordId := none,
                 isEditorOpen := false, isSubmitting := false }
          else { s with
                 items := s.items.filter (fun it => it.id != r.id),
                 errorMessage := none, isSubmitting := false }) := by
  obtain ⟨it, err, opn, eid, refr, subm, nid, pend⟩ := s
  obtain rfl : pend = [] := hp
  refine ⟨?_, ?_, ?_, ?_, ?_, ?_⟩
  · simp [removeStart_remote hd]
  · simp [removeStart_remote hd]
  · simp [removeStart_remote hd]
  · simp [removeStart_remote hd]
  · simp [removeStart, runEvents, applyEvent, erasePending, removeReject, hd]
  · simp only [runEvents, applyEvent]
    rw [removeStart_remote hd]
    simp only [List.nil_append, List.get?]
    cases heq : (eid == some r.id) with
    | true =>
      simp [removeResolve, erasePending, closeEditor, heq]
    | false =>
      simp [removeResolve, erasePending, heq]

/-- Witness for C5 at a concrete two-record state. -/
theorem C5_witness :
    (removeStart cfgAll ⟨2, 0⟩ (initialState [⟨1, 0⟩, ⟨2, 0⟩])).items
        = (initialState [⟨1, 0⟩, ⟨2, 0⟩]).items
  ∧ (removeStart cfgAll ⟨2, 0⟩ (initialState [⟨1, 0⟩, ⟨2, 0⟩])).isEditorOpen
        = (initialState [⟨1, 0⟩, ⟨2, 0⟩]).isEditorOpen
  ∧ (removeStart cfgAll ⟨2, 0⟩ (initialState [⟨1, 0⟩, ⟨2, 0⟩])).editingRecordId
        = (initialState [⟨1, 0⟩, ⟨2, 0⟩]).editingRecordId
  ∧ (removeStart cfgAll ⟨2, 0⟩ (initialState [⟨1, 0⟩, ⟨2, 0⟩])).pending
        = [PendingOp.deleteOp (⟨2, 0⟩ : Record).id (initialState [⟨1, 0⟩, ⟨2, 0⟩]).editingRecordId]
  ∧ runEvents cfgAll (initialState [⟨1, 0⟩, ⟨2, 0⟩])
        [Event.evRemoveStart ⟨2, 0⟩, Event.evSettleDeleteErr 0 (some "boom")]
      = some { initialState [⟨1, 0⟩, ⟨2, 0⟩] with
               errorMessage := some (toErrorMessage (some "boom") deleteFallback),
               isSubmitting := false }
  ∧ runEvents cfgAll (initialState [⟨1, 0⟩, ⟨2, 0⟩])
        [Event.evRemoveStart ⟨2, 0⟩, Event.evSettleDeleteOk 0]
      = some (if (initialState [⟨1, 0⟩, ⟨2, 0⟩]).editingRecordId == some (⟨2, 0⟩ : Record).id
          then { initialState [⟨1, 0⟩, ⟨2, 0⟩] with
                 items := (initialState [⟨1, 0⟩, ⟨2, 0⟩]).items.filter
                     (fun it => it.id != (⟨2, 0⟩ : Record).id),
                 errorMessage := none, editingRecordId := none,
                 isEditorOpen := false, isSubmitting := false }
          else { initialState [⟨1, 0⟩, ⟨2, 0⟩] with
                 items := (initialState [⟨1, 0⟩, ⟨2, 0⟩]).items.filter
                     (fun it => it.id != (⟨2, 0⟩ : Record).id),
                 errorMessage := none, isSubmitting := false }) :=
  C5_remove_waits_for_remote cfgAll ⟨2, 0⟩ (some "boom") (initialState [⟨1, 0⟩, ⟨2, 0⟩])
    rfl rfl

/-! ## Claim C6: stale edit target -/

/-- C6: a `submit` in Editing state whose target identifier is absent from
`items` sets the stale-record message and changes nothing else — `items`
and the editor are untouched, and the rejection is caught rather than
thrown (the operation is total and returns a settled state). -/
theorem C6_stale_edit_target (cfg : Config) (p : Input) (s : ControllerState) (i : Int)
    (h1 : s.editingRecordId = some i) (h2 : freshId i s.items = true) :
    submitStart cfg p s
      = { s with errorMessage := some staleRecordMessage, isSubmitting := false } := by
  have her : editingRecord s = none := by
    unfold editingRecord
    rw [h1]
    exact find?_eq_none_of_fresh h2
  exact submitStart_stale h1 her

/-- The state reached by `openEdit({id := 5})` from an empty collection:
the edit target is absent. -/
def c6State : ControllerState :=
  { items := [], errorMessage := none, isEditorOpen := true,
    editingRecordId := some 5, isRefreshing := false, isSubmitting := false,
    nextLocalId := 1, pending := [] }

/-- Witness for C6. -/
theorem C6_witness :
    submitStart cfgAll 0 c6State
      = { c6State with errorMessage := some staleRecordMessage, isSubmitting := false } :=
  C6_stale_edit_target cfgAll 0 c6State 5 rfl rfl

/-! ## Claim C7: openEdit on a vanished record -/

/-- Claim C7 as stated: `openEdit(record)` with a record absent from the
collection leaves the editor state (`isEditorOpen` and the editing target)
unchanged. -/
def c7ClaimStatement : Prop :=
  ∀ (cfg : Config) (init : List Record) (tr : List Event) (s : ControllerState) (r : Record),
    runEvents cfg (initialState init) tr = some s →
    freshId r.id s.items = true →
    (openEdit s r).isEditorOpen = s.isEditorOpen
      ∧ (openEdit s r).editingRecordId = s.editingRecordId

/-- C7 is false as stated: `openEdit` performs no existence check — it
always records the target and opens the editor, even for a vanished
record. -/
theorem C7_counterexample : ¬ c7ClaimStatement := by
  intro h
  have hbad := (h cfgAll [] [] (initialState []) ⟨5, 0⟩ rfl rfl).1
  exact absurd hbad (by decide)

/-- C7 (amended): `openEdit(record)` unconditionally clears the error,
records `record.id` as the editing target and opens the editor, and it
never throws; when the record is absent from `items` the derived
`editingRecord` is `null`, which is the only sense in which the vanished
target is handled silently. -/
theorem C7_openEdit_always_opens (s : ControllerState) (r : Record)
    (habs : freshId r.id s.items = true) :
    openEdit s r
      = { s with
          errorMessage := none, editingRecordId := some r.id, isEditorOpen := true }
  ∧ editingRecord (openEdit s r) = none := by
  refine ⟨rfl, ?_⟩
  unfold editingRecord openEdit
  exact find?_eq_none_of_fresh habs

/-- Witness for C7. -/
theorem C7_witness :
    openEdit (initialState []) ⟨5, 0⟩
        = { initialState [] with
            errorMessage := none, editingRecordId := some (⟨5, 0⟩ : Record).id,
            isEditorOpen := true }
  ∧ editingRecord (openEdit (initialState []) ⟨5, 0⟩) = none :=
  C7_openEdit_always_opens (initialState []) ⟨5, 0⟩ rfl

/-! ## Claim C8: reconciliation on a vanished identifier -/

/-- Claim C8 as stated: a create or edit success callback firing at a
moment when the relevant identifier is absent from `items` does not
(re)introduce that identifier. -/
def c8ClaimStatement : Prop :=
  (∀ (cfg : Config) (init : List Record) (tr : List Event) (s : ControllerState)
      (rec : Record),
    runEvents cfg (initialState init) tr = some s →
    freshId rec.id s.items = true →
    freshId rec.id (submitCreateResolve s rec).items = true)
  ∧ (∀ (cfg : Config) (init : List Record) (tr : List Event) (s : ControllerState)
      (rec : Record),
    runEvents cfg (initialState init) tr = some s →
    freshId rec.id s.items = true →
    freshId rec.id (submitEditResolve s rec).items = true)

/-- A run in which a create is in flight, a refresh brings in the record
with identifier 7, a remove deletes it, and the create has not settled yet:
identifier 7 was present and has been deleted meanwhile. -/
def c8Trace : List Event :=
  [Event.evOpenCreate, Event.evSubmitStart 0, Event.evRefreshStart,
   Event.evSettleRefreshOk 1 [⟨7, 5⟩], Event.evRemoveStart ⟨7, 5⟩,
   Event.evSettleDeleteOk 1]

/-- The state reached by `c8Trace`: empty `items`, one pending create. -/
def c8MidState : ControllerState :=
  { items := [], errorMessage := none, isEditorOpen := true,
    editingRecordId := none, isRefreshing := false, isSubmitting := false,
    nextLocalId := 8, pending := [PendingOp.createOp 0] }

/-- C8 is false as stated for the create path: the code inserts no
provisional record, so a create success prepends the returned record
unconditionally — here it reinstates identifier 7 even though the record
carrying 7 was deleted while the create was in flight. -/
theorem C8_counterexample : ¬ c8ClaimStatement := by
  intro h
  have hbad := h.1 cfgAll [] c8Trace c8MidState ⟨7, 0⟩ (by decide) rfl
  exact absurd hbad (by decide)

/-- C8 (amended): edit reconciliation is idempotent — an `onEdit` success
whose returned identifier (the reconciliation key, normally the edit
target) is absent from `items` leaves `items` unchanged; a create success
has no provisional record to reconcile and prepends the collaborator's
record unconditionally. -/
theorem C8_edit_reconciliation_idempotent (s : ControllerState) (rec : Record)
    (hfresh : freshId rec.id s.items = true) :
    (submitEditResolve s rec).items = s.items
  ∧ (submitCreateResolve s rec).items = rec :: s.items := by
  constructor
  · show (s.items.map fun it => if it.id == rec.id then rec else it) = s.items
    exact map_replace_of_fresh hfresh
  · rfl

/-- Witness for C8. -/
theorem C8_witness :
    (submitEditResolve (initialState [⟨1, 4⟩]) ⟨7, 0⟩).items = (initialState [⟨1, 4⟩]).items
  ∧ (submitCreateResolve (initialState [⟨1, 4⟩]) ⟨7, 0⟩).items
      = ⟨7, 0⟩ :: (initialState [⟨1, 4⟩]).items :=
  C8_edit_reconciliation_idempotent (initialState [⟨1, 4⟩]) ⟨7, 0⟩ rfl

/-! ## Claim C9: refresh contract -/

/-- C9: without an `onRefresh` collaborator, `refresh()` is a no-op; with
one, a success replaces `items` wholesale with the returned list (and
advances the counter past its maximum), while a rejection leaves `items`
exactly unchanged and sets the error message. -/
theorem C9_refresh_contract (cfgOff cfgOn : Config) (s : ControllerState)
    (l : List Record) (e : Option String)
    (hoff : cfgOff.hasRefresh = false) (hon : cfgOn.hasRefresh = true)
    (hp : s.pending = []) :
    refreshStart cfgOff s = s
  ∧ runEvents cfgOn s [Event.evRefreshStart, Event.evSettleRefreshOk 0 l]
      = some { s with
               items := l, nextLocalId := max s.nextLocalId (getNextLocalId l),
               errorMessage := none, isRefreshing := false }
  ∧ runEvents cfgOn s [Event.evRefreshStart, Event.evSettleRefreshErr 0 e]
      = some { s with
               errorMessage := some (toErrorMessage e refreshFallback),
               isRefreshing := false } := by
  obtain ⟨it, err, opn, eid, refr, subm, nid, pend⟩ := s
  obtain rfl : pend = [] := hp
  refine ⟨refreshStart_off hoff, ?_, ?_⟩
  · simp [runEvents, applyEvent, refreshStart_on hon, erasePending, refreshResolve]
  · simp [runEvents, applyEvent, refreshStart_on hon, erasePending, refreshReject]

/-- Witness for C9. -/
theorem C9_witness :
    refreshStart cfgLocal (initialState [⟨1, 2⟩]) = initialState [⟨1, 2⟩]
  ∧ runEvents cfgAll (initialState [⟨1, 2⟩])
        [Event.evRefreshStart, Event.evSettleRefreshOk 0 [⟨9, 0⟩]]
      = some { initialState [⟨1, 2⟩] with
               items := [⟨9, 0⟩],
               nextLocalId := max (initialState [⟨1, 2⟩]).nextLocalId
                 (getNextLocalId [⟨9, 0⟩]),
               errorMessage := none, isRefreshing := false }
  ∧ runEvents cfgAll (initialState [⟨1, 2⟩])
        [Event.evRefreshStart, Event.evSettleRefreshErr 0 (some "down")]
      = some { initialState [⟨1, 2⟩] with
               errorMessage := some (toErrorMessage (some "down") refreshFallback),
               isRefreshing := false } :=
  C9_refresh_contract cfgLocal cfgAll (initialState [⟨1, 2⟩]) [⟨9, 0⟩] (some "down")
    rfl rfl rfl

/-! ## Claim C10: editingRecord consistency -/

/-- C10: at every observable point the derived `editingRecord` is either
`null` or an element of `items` whose identifier is the current editing
target; consequently, once the target identifier leaves `items` (for
instance through a concurrent `remove`), `editingRecord` is `null` even if
`isEditorOpen` is still `true`, and a record absent from `items` is never
exposed. -/
theorem C10_editingRecord_in_items (s : ControllerState) :
    (editingRecord s).elim True
      (fun r => r ∈ s.items ∧ s.editingRecordId = some r.id) := by
  cases heid : s.editingRecordId with
  | none =>
    unfold editingRecord
    rw [heid]
    exact trivial
  | some i =>
    simp only [editingRecord, heid]
    cases hf : s.items.find? (fun r => r.id == i) with
    | none => exact trivial
    | some r =>
      show r ∈ s.items ∧ some i = some r.id
      have hid := List.find?_some hf
      simp only [beq_iff_eq] at hid
      exact ⟨List.mem_of_find?_eq_some hf, by rw [hid]⟩

end AssetCollection
